import Mathlib

/-!
Verification development for the vr-filtro repository.

The definitions below are a shallow embedding of the Python sources:

* `src/filters/overlay_filter.py` — `OverlayFilter._blend_rgba` and the
  origin computation of `OverlayFilter.apply`;
* `src/filters/filter_manager.py` — `FilterManager` (add / remove / move /
  set_enabled / toggle / apply, sorted by `z_order` with the stable
  `list.sort`);
* `src/filters/model_3d_filter.py` — `Model3DFilter._get_face_landmarks`
  and the per-detection loop of `Model3DFilter.apply`;
* `src/filter_config_example.py` — `FilterConfig.__post_init__` validation;
* `src/main.py` — the mustache pseudo-detection computed from the face
  landmarks (lines 188-216).

Machine arithmetic conventions: uint8 image channels are modelled as `Nat`
with an explicit wrap `% 256` at the point where numpy casts a float back
into a uint8 array; Python floats are modelled as exact rationals (every
claim settled here only evaluates the float expressions at points where
IEEE double arithmetic is exact, namely alpha in \x7b0, 255\x7d and small
integer products); Python `int(x)` truncation toward zero is `intTrunc`;
Python floor division `//` is `Int.fdiv`.
-/

namespace VRFiltro

/-- Truncation toward zero of a rational, the behaviour of Python `int(x)`
and of a C cast from double to an integer type. -/
def intTrunc (q : ℚ) : Int :=
  if q < 0 then -(Int.floor (-q)) else Int.floor q

/-- Cast of a (float) value into a uint8 numpy cell: truncate toward zero,
then wrap modulo 256. -/
def toUint8 (q : ℚ) : Nat :=
  (intTrunc q % 256).toNat

/-- One BGR pixel of the camera frame (uint8 channels modelled as `Nat`;
the uint8 range invariant is carried as a hypothesis where needed). -/
structure Pix where
  b : Nat
  g : Nat
  r : Nat
deriving DecidableEq, Repr

/-- A camera frame: height, width and the pixel grid.  (`px` is a total
function; only indices below `h` and `w` are meaningful.) -/
structure Frame where
  h : Nat
  w : Nat
  px : Nat → Nat → Pix

/-- An overlay asset as loaded by `OverlayFilter`: a BGR grid of size
`rh × rw`, plus an alpha channel when the PNG had four channels
(`rgba.shape[2] == 4` in the source). -/
structure Asset where
  rh : Nat
  rw : Nat
  px : Nat → Nat → Pix
  alpha : Option (Nat → Nat → Nat)

/-- Python slice-endpoint normalisation for a list of length `n` (positive
step): a negative index counts from the end and is clamped below by 0, a
non-negative index is clamped above by `n`. -/
def sliceIdx (a : Int) (n : Nat) : Nat :=
  if a < 0 then ((n : Int) + a).toNat else min a.toNat n

/-- One blended channel, overlay_filter.py line 175:
`(1 - alpha) * region[..c] + alpha * rgb[..c]` with `alpha = a / 255.0`,
assigned back into the uint8 frame array (truncating cast). -/
def blendChannel (a bg fg : Nat) : Nat :=
  toUint8 ((1 - (a : ℚ) / 255) * (bg : ℚ) + ((a : ℚ) / 255) * (fg : ℚ))

/-- Effect of `_blend_rgba` on one pixel inside the written region:
alpha-blend each channel when the asset has an alpha channel (lines
168-175), otherwise overwrite with the asset pixel (line 178). -/
def blendPixel (g : Asset) (ai aj : Nat) (bg : Pix) : Pix :=
  match g.alpha with
  | some al =>
      let a := al ai aj
      ⟨blendChannel a bg.b (g.px ai aj).b,
       blendChannel a bg.g (g.px ai aj).g,
       blendChannel a bg.r (g.px ai aj).r⟩
  | none => g.px ai aj

/-- Shallow embedding of `OverlayFilter._blend_rgba` (overlay_filter.py
lines 137-178).  The function mutates `frame` in place; here it returns
the new frame, and `none` models the `ValueError` numpy raises when the
shapes of the region view and of the clipped overlay slices do not agree
(which can happen for negative origins).  Following the source:
an early return when `ox >= w or oy >= h`; clip `rh_clipped = min(rh, h - oy)`
and `rw_clipped = min(rw, w - ox)`; early return when either is `<= 0`;
take the view `frame[oy:oy+rh_clipped, ox:ox+rw_clipped]` (Python slice
semantics, so a negative origin counts from the end of the axis) and
assign the blended values into it.  The assignment succeeds exactly when
each view dimension equals the clipped extent, or is 0 while the clipped
extent is 1 (numpy broadcast of a length-1 axis into an empty view). -/
def blendRGBA (f : Frame) (g : Asset) (ox oy : Int) : Option Frame :=
  if (f.w : Int) ≤ ox ∨ (f.h : Int) ≤ oy then some f
  else
    let rhc : Int := min (g.rh : Int) ((f.h : Int) - oy)
    let rwc : Int := min (g.rw : Int) ((f.w : Int) - ox)
    if rhc ≤ 0 ∨ rwc ≤ 0 then some f
    else
      let rs := sliceIdx oy f.h
      let re := sliceIdx (oy + rhc) f.h
      let cs := sliceIdx ox f.w
      let ce := sliceIdx (ox + rwc) f.w
      if (re - rs = rhc.toNat ∨ (re - rs = 0 ∧ rhc = 1)) ∧
         (ce - cs = rwc.toNat ∨ (ce - cs = 0 ∧ rwc = 1)) then
        some { f with px := fun i j =>
          (if rs ≤ i ∧ i < re ∧ cs ≤ j ∧ j < ce then
            blendPixel g (i - rs) (j - cs) (f.px i j)
          else f.px i j) }
      else none

lemma sliceIdx_of_nonneg (a : Int) (n : Nat) (h : 0 ≤ a) :
    sliceIdx a n = min a.toNat n := by
  unfold sliceIdx
  rw [if_neg (by omega)]

lemma intTrunc_natCast (n : Nat) : intTrunc (n : ℚ) = n := by
  unfold intTrunc
  rw [if_neg (not_lt.mpr (by positivity)), Int.floor_natCast]

lemma toUint8_natCast (n : Nat) (h : n < 256) : toUint8 (n : ℚ) = n := by
  unfold toUint8
  rw [intTrunc_natCast]
  omega

/-- Blending with alpha 0 returns the background channel unchanged
(for an in-range uint8 background value). -/
lemma blendChannel_zero (bg fg : Nat) (h : bg < 256) :
    blendChannel 0 bg fg = bg := by
  have e : (1 - ((0 : Nat) : ℚ) / 255) * (bg : ℚ) + (((0 : Nat) : ℚ) / 255) * (fg : ℚ)
      = ((bg : Nat) : ℚ) := by push_cast; ring
  unfold blendChannel
  rw [e, toUint8_natCast bg h]

/-- Blending with alpha 255 returns the foreground channel exactly
(for an in-range uint8 foreground value). -/
lemma blendChannel_full (bg fg : Nat) (h : fg < 256) :
    blendChannel 255 bg fg = fg := by
  have e : (1 - ((255 : Nat) : ℚ) / 255) * (bg : ℚ) + (((255 : Nat) : ℚ) / 255) * (fg : ℚ)
      = ((fg : Nat) : ℚ) := by push_cast; ring
  unfold blendChannel
  rw [e, toUint8_natCast fg h]

/-- Normal form of `blendRGBA` for a non-negative origin that hits the
frame: the result is defined, and exactly the pixels of the clipped
rectangle are rewritten by `blendPixel`. -/
lemma blendRGBA_nonneg_eq (f : Frame) (g : Asset) (ox oy : Int)
    (hx : 0 ≤ ox) (hy : 0 ≤ oy)
    (hxw : ox < (f.w : Int)) (hyh : oy < (f.h : Int))
    (hrh : 0 < g.rh) (hrw : 0 < g.rw) :
    blendRGBA f g ox oy = some { f with px := fun i j =>
      (if oy.toNat ≤ i ∧
          i < oy.toNat + (min (g.rh : Int) ((f.h : Int) - oy)).toNat ∧
          ox.toNat ≤ j ∧
          j < ox.toNat + (min (g.rw : Int) ((f.w : Int) - ox)).toNat then
        blendPixel g (i - oy.toNat) (j - ox.toNat) (f.px i j)
      else f.px i j) } := by
  unfold blendRGBA
  rw [if_neg (by omega), if_neg (by omega)]
  rw [sliceIdx_of_nonneg oy f.h hy,
      sliceIdx_of_nonneg (oy + min (g.rh : Int) ((f.h : Int) - oy)) f.h (by omega),
      sliceIdx_of_nonneg ox f.w hx,
      sliceIdx_of_nonneg (ox + min (g.rw : Int) ((f.w : Int) - ox)) f.w (by omega)]
  rw [if_pos (by constructor <;> left <;> omega)]
  congr 1
  congr 1
  funext i j
  have hcond :
      (min oy.toNat f.h ≤ i ∧
        i < min (oy + min (g.rh : Int) ((f.h : Int) - oy)).toNat f.h ∧
        min ox.toNat f.w ≤ j ∧
        j < min (ox + min (g.rw : Int) ((f.w : Int) - ox)).toNat f.w) ↔
      (oy.toNat ≤ i ∧
        i < oy.toNat + (min (g.rh : Int) ((f.h : Int) - oy)).toNat ∧
        ox.toNat ≤ j ∧
        j < ox.toNat + (min (g.rw : Int) ((f.w : Int) - ox)).toNat) := by
    omega
  rw [if_congr hcond rfl rfl]
  congr 2 <;> omega

/-- For a non-negative origin, `blendRGBA` is a no-op whenever the asset
footprint cannot meet the frame (origin past the right or bottom edge, or
an empty asset). -/
lemma blendRGBA_noop (f : Frame) (g : Asset) (ox oy : Int)
    (hc : (f.w : Int) ≤ ox ∨ (f.h : Int) ≤ oy ∨ g.rh = 0 ∨ g.rw = 0) :
    blendRGBA f g ox oy = some f := by
  simp only [blendRGBA]
  split_ifs with h1 h2 h3
  · rfl
  · rfl
  · exfalso; omega
  · exfalso; omega

/-- C1 (amended to non-negative origins): the blend writes only inside the
clipped intersection of the asset footprint with the frame; every other
pixel keeps its previous value bit for bit, the blend never fails, and
when the intersection is empty the whole frame is returned unchanged. -/
theorem overlay_blend_writes_confined (f : Frame) (g : Asset) (ox oy : Int)
    (hx : 0 ≤ ox) (hy : 0 ≤ oy) :
    ∃ f2, blendRGBA f g ox oy = some f2 ∧ f2.h = f.h ∧ f2.w = f.w ∧
      (∀ i j : Nat,
        ¬(oy ≤ (i : Int) ∧ (i : Int) < oy + (g.rh : Int) ∧ i < f.h ∧
          ox ≤ (j : Int) ∧ (j : Int) < ox + (g.rw : Int) ∧ j < f.w) →
        f2.px i j = f.px i j) ∧
      ((f.w : Int) ≤ ox ∨ (f.h : Int) ≤ oy ∨ g.rh = 0 ∨ g.rw = 0 →
        blendRGBA f g ox oy = some f) := by
  by_cases hc : (f.w : Int) ≤ ox ∨ (f.h : Int) ≤ oy ∨ g.rh = 0 ∨ g.rw = 0
  · have hno := blendRGBA_noop f g ox oy hc
    exact ⟨f, hno, rfl, rfl, fun i j _ => rfl, fun _ => hno⟩
  · rw [blendRGBA_nonneg_eq f g ox oy hx hy (by omega) (by omega)
      (by omega) (by omega)]
    refine ⟨_, rfl, rfl, rfl, ?_, fun hbad => absurd hbad hc⟩
    intro i j hout
    simp only
    rw [if_neg (by omega)]

/-- C1 counterexample: the source claim quantifies over all origins,
including negative ones.  At origin `(ox, oy) = (0, -3)` a `2 × 1` asset
placed over a `4 × 1` frame has an empty intersection with the frame
(its footprint rows are -3 and -2), yet Python negative-index slicing
makes `_blend_rgba` overwrite frame row 1: the pixel changes from
`(1,1,1)` to the asset value `(9,9,9)`. -/
theorem overlay_blend_negative_origin_counterexample :
    ((-3 : Int) + ((2 : Nat) : Int) ≤ 0) ∧
    (Frame.px ⟨4, 1, fun i _ => ⟨i, i, i⟩⟩ 1 0 = ⟨1, 1, 1⟩) ∧
    ((blendRGBA ⟨4, 1, fun i _ => ⟨i, i, i⟩⟩
        ⟨2, 1, fun _ _ => ⟨9, 9, 9⟩, none⟩ 0 (-3)).map
      (fun fr => fr.px 1 0) = some ⟨9, 9, 9⟩) ∧
    (⟨1, 1, 1⟩ : Pix) ≠ ⟨9, 9, 9⟩ := by
  refine ⟨by decide, rfl, by decide, by decide⟩

/-- Witness for `overlay_blend_writes_confined` at a concrete frame,
asset and origin. -/
theorem overlay_blend_writes_confined_witness :
    (0 : Int) ≤ 0 ∧
    ∃ f2, blendRGBA ⟨4, 1, fun i _ => ⟨i, i, i⟩⟩
        ⟨2, 1, fun _ _ => ⟨9, 9, 9⟩, none⟩ 0 0 = some f2 ∧
      f2.h = (4 : Nat) ∧ f2.w = (1 : Nat) ∧
      (∀ i j : Nat,
        ¬((0 : Int) ≤ (i : Int) ∧ (i : Int) < 0 + ((2 : Nat) : Int) ∧ i < 4 ∧
          (0 : Int) ≤ (j : Int) ∧ (j : Int) < 0 + ((1 : Nat) : Int) ∧ j < 1) →
        f2.px i j = Frame.px ⟨4, 1, fun i _ => ⟨i, i, i⟩⟩ i j) ∧
      (((1 : Nat) : Int) ≤ 0 ∨ ((4 : Nat) : Int) ≤ 0 ∨ (2 : Nat) = 0 ∨ (1 : Nat) = 0 →
        blendRGBA ⟨4, 1, fun i _ => ⟨i, i, i⟩⟩
          ⟨2, 1, fun _ _ => ⟨9, 9, 9⟩, none⟩ 0 0 = some ⟨4, 1, fun i _ => ⟨i, i, i⟩⟩) :=
  ⟨le_refl 0,
    overlay_blend_writes_confined ⟨4, 1, fun i _ => ⟨i, i, i⟩⟩
      ⟨2, 1, fun _ _ => ⟨9, 9, 9⟩, none⟩ 0 0 (by decide) (by decide)⟩

/-- C2: at every pixel of the clipped region, the blend applies
`blendPixel`; with alpha 0 the background pixel is exactly unchanged, with
alpha 255 it is exactly replaced by the foreground channels, and for an
asset without an alpha channel it is overwritten with the asset pixel.
The `< 256` hypotheses are the uint8 dtype invariant of the numpy
arrays. -/
theorem overlay_blend_alpha_endpoints (f : Frame) (g : Asset) (ox oy : Int)
    (i j : Nat) (hx : 0 ≤ ox) (hy : 0 ≤ oy)
    (hi1 : oy ≤ (i : Int)) (hi2 : (i : Int) < oy + (g.rh : Int)) (hi3 : i < f.h)
    (hj1 : ox ≤ (j : Int)) (hj2 : (j : Int) < ox + (g.rw : Int)) (hj3 : j < f.w) :
    ∃ f2, blendRGBA f g ox oy = some f2 ∧
      f2.px i j = blendPixel g (i - oy.toNat) (j - ox.toNat) (f.px i j) ∧
      (g.alpha = none →
        f2.px i j = g.px (i - oy.toNat) (j - ox.toNat)) ∧
      (∀ al, g.alpha = some al → al (i - oy.toNat) (j - ox.toNat) = 0 →
        (f.px i j).b < 256 → (f.px i j).g < 256 → (f.px i j).r < 256 →
        f2.px i j = f.px i j) ∧
      (∀ al, g.alpha = some al → al (i - oy.toNat) (j - ox.toNat) = 255 →
        (g.px (i - oy.toNat) (j - ox.toNat)).b < 256 →
        (g.px (i - oy.toNat) (j - ox.toNat)).g < 256 →
        (g.px (i - oy.toNat) (j - ox.toNat)).r < 256 →
        f2.px i j = g.px (i - oy.toNat) (j - ox.toNat)) := by
  rw [blendRGBA_nonneg_eq f g ox oy hx hy (by omega) (by omega)
    (by omega) (by omega)]
  have hpx :
      Frame.px { f with px := fun i j =>
        (if oy.toNat ≤ i ∧
            i < oy.toNat + (min (g.rh : Int) ((f.h : Int) - oy)).toNat ∧
            ox.toNat ≤ j ∧
            j < ox.toNat + (min (g.rw : Int) ((f.w : Int) - ox)).toNat then
          blendPixel g (i - oy.toNat) (j - ox.toNat) (f.px i j)
        else f.px i j) } i j
      = blendPixel g (i - oy.toNat) (j - ox.toNat) (f.px i j) := by
    simp only
    rw [if_pos (by omega)]
  refine ⟨_, rfl, hpx, ?_, ?_, ?_⟩
  · intro h0
    rw [hpx]
    simp [blendPixel, h0]
  · intro al hal h0 hb hg hr
    rw [hpx]
    simp only [blendPixel, hal]
    rw [h0, blendChannel_zero _ _ hb, blendChannel_zero _ _ hg,
      blendChannel_zero _ _ hr]
  · intro al hal h0 hb hg hr
    rw [hpx]
    simp only [blendPixel, hal]
    rw [h0, blendChannel_full _ _ hb, blendChannel_full _ _ hg,
      blendChannel_full _ _ hr]

/-- Witness for `overlay_blend_alpha_endpoints` at a concrete frame,
asset and pixel. -/
theorem overlay_blend_alpha_endpoints_witness :
    ((0 : Int) ≤ 0 ∧ (0 : Int) ≤ ((0 : Nat) : Int) ∧
      ((0 : Nat) : Int) < 0 + ((1 : Nat) : Int) ∧ (0 : Nat) < 2) ∧
    ∃ f2, blendRGBA ⟨2, 2, fun _ _ => ⟨10, 20, 30⟩⟩
        ⟨1, 1, fun _ _ => ⟨1, 2, 3⟩, some (fun _ _ => 255)⟩ 0 0 = some f2 ∧
      f2.px 0 0 = blendPixel ⟨1, 1, fun _ _ => ⟨1, 2, 3⟩, some (fun _ _ => 255)⟩
        ((0 : Nat) - (0 : Int).toNat) ((0 : Nat) - (0 : Int).toNat)
        (Frame.px ⟨2, 2, fun _ _ => ⟨10, 20, 30⟩⟩ 0 0) ∧
      (Asset.alpha ⟨1, 1, fun _ _ => ⟨1, 2, 3⟩, some (fun _ _ => 255)⟩ = none →
        f2.px 0 0 = ⟨1, 2, 3⟩) ∧
      (∀ al, Asset.alpha ⟨1, 1, fun _ _ => ⟨1, 2, 3⟩, some (fun _ _ => 255)⟩
          = some al →
        al ((0 : Nat) - (0 : Int).toNat) ((0 : Nat) - (0 : Int).toNat) = 0 →
        (Frame.px ⟨2, 2, fun _ _ => ⟨10, 20, 30⟩⟩ 0 0).b < 256 →
        (Frame.px ⟨2, 2, fun _ _ => ⟨10, 20, 30⟩⟩ 0 0).g < 256 →
        (Frame.px ⟨2, 2, fun _ _ => ⟨10, 20, 30⟩⟩ 0 0).r < 256 →
        f2.px 0 0 = Frame.px ⟨2, 2, fun _ _ => ⟨10, 20, 30⟩⟩ 0 0) ∧
      (∀ al, Asset.alpha ⟨1, 1, fun _ _ => ⟨1, 2, 3⟩, some (fun _ _ => 255)⟩
          = some al →
        al ((0 : Nat) - (0 : Int).toNat) ((0 : Nat) - (0 : Int).toNat) = 255 →
        (⟨1, 2, 3⟩ : Pix).b < 256 → (⟨1, 2, 3⟩ : Pix).g < 256 →
        (⟨1, 2, 3⟩ : Pix).r < 256 →
        f2.px 0 0 = ⟨1, 2, 3⟩) :=
  ⟨⟨by decide, by decide, by decide, by decide⟩,
    overlay_blend_alpha_endpoints ⟨2, 2, fun _ _ => ⟨10, 20, 30⟩⟩
      ⟨1, 1, fun _ _ => ⟨1, 2, 3⟩, some (fun _ _ => 255)⟩ 0 0 0 0
      (by decide) (by decide) (by decide) (by decide) (by decide)
      (by decide) (by decide) (by decide)⟩

/-- Shallow embedding of `FilterItem` (filter_manager.py lines 18-31).
The mutable Python filter object is the `filter_obj` field of type `σ`. -/
structure FilterItem (σ : Type) where
  name : String
  filter_obj : σ
  enabled : Bool
  z_order : Int

/-- Comparison used by `FilterManager._sort_by_z_order`
(`self.filters.sort(key=lambda x: x.z_order)`). -/
def zleItem {σ : Type} (a b : FilterItem σ) : Prop :=
  a.z_order ≤ b.z_order

instance {σ : Type} : DecidableRel (@zleItem σ) :=
  fun a b => inferInstanceAs (Decidable (a.z_order ≤ b.z_order))

instance {σ : Type} : IsTotal (FilterItem σ) (@zleItem σ) :=
  ⟨fun a b => le_total a.z_order b.z_order⟩

instance {σ : Type} : IsTrans (FilterItem σ) (@zleItem σ) :=
  ⟨fun _ _ _ hab hbc => le_trans hab hbc⟩

/-- Embedding of `FilterManager._sort_by_z_order` (lines 209-211).  Python
`list.sort` is guaranteed stable, so it is modelled by the (stable)
insertion sort over the `z_order` key: any stable sort computes the same
list. -/
def sortZ {σ : Type} (l : List (FilterItem σ)) : List (FilterItem σ) :=
  List.insertionSort (@zleItem σ) l

/-- Embedding of `FilterManager.get_filter_by_name` (lines 184-196):
the first item with the given name, if any. -/
def getFilterByName {σ : Type} (l : List (FilterItem σ)) (n : String) :
    Option (FilterItem σ) :=
  l.find? (fun it => it.name == n)

/-- Embedding of `FilterManager.remove` (lines 168-182): pop the first
item with the given name; no-op when absent.  (The returned Python bool is
not part of the registry state.) -/
def removeFirst {σ : Type} : List (FilterItem σ) → String → List (FilterItem σ)
  | [], _ => []
  | a :: l, n => if a.name == n then l else a :: removeFirst l n

/-- Embedding of `FilterManager.add` (lines 45-74): when the name exists,
remove that unit first; append the new `FilterItem`; re-sort by
`z_order`. -/
def fmAdd {σ : Type} (l : List (FilterItem σ)) (n : String) (obj : σ)
    (e : Bool) (z : Int) : List (FilterItem σ) :=
  let l2 := if (getFilterByName l n).isSome then removeFirst l n else l
  sortZ (l2 ++ [⟨n, obj, e, z⟩])

/-- Mutation of the first item with the given name, the effect of writing
through the object returned by `get_filter_by_name`. -/
def setZFirst {σ : Type} : List (FilterItem σ) → String → Int → List (FilterItem σ)
  | [], _, _ => []
  | a :: l, n, z =>
    if a.name == n then { a with z_order := z } :: l else a :: setZFirst l n z

/-- Embedding of `FilterManager.move` (lines 139-166): when the name
exists, overwrite that unit's `z_order` and re-sort; otherwise no-op. -/
def fmMove {σ : Type} (l : List (FilterItem σ)) (n : String) (z : Int) :
    List (FilterItem σ) :=
  if (getFilterByName l n).isSome then sortZ (setZFirst l n z) else l

/-- Embedding of `FilterManager.set_enabled` (lines 76-98): overwrite the
`enabled` flag of the first item with the given name; no-op when absent. -/
def fmSetEnabled {σ : Type} : List (FilterItem σ) → String → Bool → List (FilterItem σ)
  | [], _, _ => []
  | a :: l, n, e =>
    if a.name == n then { a with enabled := e } :: l else a :: fmSetEnabled l n e

/-- Embedding of `FilterManager.toggle` (lines 100-113): negate the
`enabled` flag of the first item with the given name; no-op when absent. -/
def fmToggle {σ : Type} : List (FilterItem σ) → String → List (FilterItem σ)
  | [], _ => []
  | a :: l, n =>
    if a.name == n then { a with enabled := !a.enabled } :: l else a :: fmToggle l n

/-- Embedding of `FilterManager.apply` (lines 115-137): walk the units in
list order; for each unit whose `enabled` flag is set and whose filter
object is truthy, invoke its render capability on the threaded frame
(`frame = filter_item.filter_obj.apply(frame, detections)`); the unit's
internal filter state is updated in place, everything else is kept.
`render` is the method table of the filter objects (detections are
absorbed into it, since `apply` passes them through unchanged), `truthy`
is Python truthiness of the filter object. -/
def fmApply {σ φ : Type} (render : σ → φ → σ × φ) (truthy : σ → Bool) :
    List (FilterItem σ) → φ → List (FilterItem σ) × φ
  | [], fr => ([], fr)
  | a :: l, fr =>
    if a.enabled && truthy a.filter_obj then
      let res := render a.filter_obj fr
      let rest := fmApply render truthy l res.2
      ({ a with filter_obj := res.1 } :: rest.1, rest.2)
    else
      let rest := fmApply render truthy l fr
      (a :: rest.1, rest.2)

/-- The units actually visited by `fmApply`, in visit order. -/
def applyTrace {σ : Type} (truthy : σ → Bool) (l : List (FilterItem σ)) :
    List (FilterItem σ) :=
  l.filter (fun it => it.enabled && truthy it.filter_obj)

/-- The public mutating operations of `FilterManager`, for stating
reachability invariants over every operation sequence. -/
inductive FMOp (σ : Type) where
  | add (n : String) (obj : σ) (e : Bool) (z : Int)
  | move (n : String) (z : Int)
  | remove (n : String)
  | setEnabled (n : String) (e : Bool)
  | toggle (n : String)

/-- One registry operation. -/
def fmStep {σ : Type} (l : List (FilterItem σ)) : FMOp σ → List (FilterItem σ)
  | .add n obj e z => fmAdd l n obj e z
  | .move n z => fmMove l n z
  | .remove n => removeFirst l n
  | .setEnabled n e => fmSetEnabled l n e
  | .toggle n => fmToggle l n

/-- Registry reached from the initial empty registry
(`self.filters = []` in `__init__`) by a sequence of operations. -/
def fmRun {σ : Type} (ops : List (FMOp σ)) : List (FilterItem σ) :=
  ops.foldl fmStep []

/-- Number of units stored under a given name. -/
def countName {σ : Type} (l : List (FilterItem σ)) (n : String) : Nat :=
  (l.filter (fun it => it.name == n)).length

lemma sorted_sortZ {σ : Type} (l : List (FilterItem σ)) :
    List.Sorted (@zleItem σ) (sortZ l) :=
  List.sorted_insertionSort (@zleItem σ) l

lemma removeFirst_sublist {σ : Type} (l : List (FilterItem σ)) (n : String) :
    List.Sublist (removeFirst l n) l := by
  induction l with
  | nil => exact List.Sublist.refl _
  | cons a t ih =>
      unfold removeFirst
      by_cases h : (a.name == n) = true
      · rw [if_pos h]
        exact List.sublist_cons_self a t
      · rw [if_neg h]
        exact ih.cons₂ a

lemma sorted_removeFirst {σ : Type} (l : List (FilterItem σ)) (n : String)
    (hs : List.Sorted (@zleItem σ) l) :
    List.Sorted (@zleItem σ) (removeFirst l n) :=
  hs.sublist (removeFirst_sublist l n)

lemma sorted_iff_map_z {σ : Type} (l : List (FilterItem σ)) :
    List.Sorted (@zleItem σ) l ↔
      List.Sorted (fun x y : Int => x ≤ y) (l.map (fun it => it.z_order)) := by
  constructor
  · intro h
    exact (List.pairwise_map' (fun it : FilterItem σ => it.z_order)).mpr h
  · intro h
    exact (List.pairwise_map' (fun it : FilterItem σ => it.z_order)).mp h

lemma map_z_fmSetEnabled {σ : Type} (l : List (FilterItem σ)) (n : String)
    (e : Bool) :
    (fmSetEnabled l n e).map (fun it => it.z_order)
      = l.map (fun it => it.z_order) := by
  induction l with
  | nil => rfl
  | cons a t ih =>
      unfold fmSetEnabled
      by_cases h : (a.name == n) = true
      · rw [if_pos h]
        simp
      · rw [if_neg h]
        simp [ih]

lemma map_z_fmToggle {σ : Type} (l : List (FilterItem σ)) (n : String) :
    (fmToggle l n).map (fun it => it.z_order)
      = l.map (fun it => it.z_order) := by
  induction l with
  | nil => rfl
  | cons a t ih =>
      unfold fmToggle
      by_cases h : (a.name == n) = true
      · rw [if_pos h]
        simp
      · rw [if_neg h]
        simp [ih]

lemma sorted_fmSetEnabled {σ : Type} (l : List (FilterItem σ)) (n : String)
    (e : Bool) (hs : List.Sorted (@zleItem σ) l) :
    List.Sorted (@zleItem σ) (fmSetEnabled l n e) := by
  rw [sorted_iff_map_z] at hs ⊢
  rw [map_z_fmSetEnabled]
  exact hs

lemma sorted_fmToggle {σ : Type} (l : List (FilterItem σ)) (n : String)
    (hs : List.Sorted (@zleItem σ) l) :
    List.Sorted (@zleItem σ) (fmToggle l n) := by
  rw [sorted_iff_map_z] at hs ⊢
  rw [map_z_fmToggle]
  exact hs

lemma sorted_fmStep {σ : Type} (l : List (FilterItem σ)) (op : FMOp σ)
    (hs : List.Sorted (@zleItem σ) l) :
    List.Sorted (@zleItem σ) (fmStep l op) := by
  cases op with
  | add n obj e z => exact sorted_sortZ _
  | move n z =>
      simp only [fmStep, fmMove]
      by_cases h : (getFilterByName l n).isSome = true
      · rw [if_pos h]
        exact sorted_sortZ _
      · rw [if_neg h]
        exact hs
  | remove n => exact sorted_removeFirst l n hs
  | setEnabled n e => exact sorted_fmSetEnabled l n e hs
  | toggle n => exact sorted_fmToggle l n hs

lemma sorted_fmRun_aux {σ : Type} (ops : List (FMOp σ)) :
    ∀ l, List.Sorted (@zleItem σ) l →
      List.Sorted (@zleItem σ) (ops.foldl fmStep l) := by
  induction ops with
  | nil => exact fun l hl => hl
  | cons op rest ih =>
      intro l hl
      exact ih (fmStep l op) (sorted_fmStep l op hl)

lemma sorted_fmRun {σ : Type} (ops : List (FMOp σ)) :
    List.Sorted (@zleItem σ) (fmRun ops) :=
  sorted_fmRun_aux ops [] (List.sorted_nil)

lemma filter_orderedInsert_pos {σ : Type} (p : FilterItem σ → Bool)
    (a : FilterItem σ) (l : List (FilterItem σ))
    (hpa : p a = true)
    (hlt : ∀ b : FilterItem σ, b.z_order < a.z_order → p b = false) :
    (List.orderedInsert (@zleItem σ) a l).filter p = a :: l.filter p := by
  induction l with
  | nil => simp [List.orderedInsert, hpa]
  | cons b t ih =>
      by_cases h : zleItem a b
      · rw [List.orderedInsert_of_le _ _ h]
        simp [hpa]
      · have hb : p b = false := hlt b (by
          have : ¬ a.z_order ≤ b.z_order := h
          omega)
        simp only [List.orderedInsert, if_neg h]
        rw [List.filter_cons_of_neg (by simp [hb]), ih,
          List.filter_cons_of_neg (by simp [hb])]

lemma filter_orderedInsert_neg {σ : Type} (p : FilterItem σ → Bool)
    (a : FilterItem σ) (l : List (FilterItem σ))
    (hpa : p a = false) :
    (List.orderedInsert (@zleItem σ) a l).filter p = l.filter p := by
  induction l with
  | nil => simp [List.orderedInsert, hpa]
  | cons b t ih =>
      by_cases h : zleItem a b
      · rw [List.orderedInsert_of_le _ _ h]
        rw [List.filter_cons_of_neg (by simp [hpa])]
      · simp only [List.orderedInsert, if_neg h]
        by_cases hb : p b = true
        · rw [List.filter_cons_of_pos (by simp [hb]), ih,
            List.filter_cons_of_pos (by simp [hb])]
        · rw [List.filter_cons_of_neg (by simpa using hb), ih,
            List.filter_cons_of_neg (by simpa using hb)]

/-- Stability of the z-order sort: the units holding any fixed key keep
their relative order. -/
lemma filter_z_sortZ {σ : Type} (l : List (FilterItem σ)) (k : Int) :
    (sortZ l).filter (fun it => it.z_order == k)
      = l.filter (fun it => it.z_order == k) := by
  induction l with
  | nil => rfl
  | cons a t ih =>
      show (List.orderedInsert (@zleItem σ) a (sortZ t)).filter _ = _
      by_cases hpa : (a.z_order == k) = true
      · rw [filter_orderedInsert_pos _ a (sortZ t) hpa
          (fun b hb => by
            have hk : a.z_order = k := by simpa using hpa
            simp only [beq_eq_false_iff_ne, ne_eq]
            omega),
          ih, List.filter_cons_of_pos (by simpa using hpa)]
      · rw [filter_orderedInsert_neg _ a (sortZ t) (by simpa using hpa),
          ih, List.filter_cons_of_neg (by simpa using hpa)]

lemma find_eq_head_filter {α : Type} (p : α → Bool) (l : List α) :
    l.find? p = (l.filter p).head? := by
  induction l with
  | nil => rfl
  | cons a t ih =>
      by_cases h : p a = true
      · rw [List.find?_cons_of_pos t h, List.filter_cons_of_pos h,
          List.head?_cons]
      · rw [List.find?_cons_of_neg t h, List.filter_cons_of_neg h, ih]

lemma filter_name_removeFirst {σ : Type} (l : List (FilterItem σ)) (n : String) :
    (removeFirst l n).filter (fun it => it.name == n)
      = (l.filter (fun it => it.name == n)).tail := by
  induction l with
  | nil => rfl
  | cons a t ih =>
      unfold removeFirst
      by_cases h : (a.name == n) = true
      · rw [if_pos h]
        simp [h]
      · rw [if_neg h]
        simp [h, ih]

lemma tail_eq_nil_of_length_le_one {α : Type} (l : List α) (h : l.length ≤ 1) :
    l.tail = [] := by
  cases l with
  | nil => rfl
  | cons a t =>
      cases t with
      | nil => rfl
      | cons b u => simp at h

lemma filter_name_fmAdd {σ : Type} (l : List (FilterItem σ)) (n : String)
    (obj : σ) (e : Bool) (z : Int) (hc : countName l n ≤ 1) :
    (fmAdd l n obj e z).filter (fun it => it.name == n)
      = [⟨n, obj, e, z⟩] := by
  unfold fmAdd
  have h2 : (if (getFilterByName l n).isSome = true then removeFirst l n
      else l).filter (fun it => it.name == n) = [] := by
    by_cases hs : (getFilterByName l n).isSome = true
    · rw [if_pos hs, filter_name_removeFirst]
      exact tail_eq_nil_of_length_le_one _ hc
    · rw [if_neg hs]
      have hnone : getFilterByName l n = none := by
        cases hfind : getFilterByName l n with
        | none => rfl
        | some x => rw [hfind] at hs; simp at hs
      rw [getFilterByName, find_eq_head_filter] at hnone
      exact List.head?_eq_none_iff.mp hnone
  have hap : ((if (getFilterByName l n).isSome = true then removeFirst l n
        else l) ++ [(⟨n, obj, e, z⟩ : FilterItem σ)]).filter
      (fun it => it.name == n) = [⟨n, obj, e, z⟩] := by
    rw [List.filter_append, h2]
    simp
  have hperm := (List.perm_insertionSort (@zleItem σ)
      ((if (getFilterByName l n).isSome = true then removeFirst l n
        else l) ++ [(⟨n, obj, e, z⟩ : FilterItem σ)])).filter
      (fun it => it.name == n)
  rw [hap] at hperm
  exact List.perm_singleton.mp hperm

lemma countName_fmAdd {σ : Type} (l : List (FilterItem σ)) (n : String)
    (obj : σ) (e : Bool) (z : Int) (hc : countName l n ≤ 1) :
    countName (fmAdd l n obj e z) n = 1 := by
  rw [countName, filter_name_fmAdd l n obj e z hc]
  rfl

/-- C4: adding twice under the same name leaves exactly one unit stored
under that name, carrying the configuration of the second call (a
replace, never a duplicate).  The hypothesis is the reachability
invariant that the starting registry holds at most one unit per name. -/
theorem registry_add_twice_replaces {σ : Type} (l : List (FilterItem σ))
    (n : String) (o1 o2 : σ) (e1 e2 : Bool) (z1 z2 : Int)
    (hc : countName l n ≤ 1) :
    countName (fmAdd (fmAdd l n o1 e1 z1) n o2 e2 z2) n = 1 ∧
    getFilterByName (fmAdd (fmAdd l n o1 e1 z1) n o2 e2 z2) n
      = some ⟨n, o2, e2, z2⟩ := by
  have h1 : countName (fmAdd l n o1 e1 z1) n = 1 :=
    countName_fmAdd l n o1 e1 z1 hc
  have h2 := filter_name_fmAdd (fmAdd l n o1 e1 z1) n o2 e2 z2 (le_of_eq h1)
  constructor
  · rw [countName, h2]
    rfl
  · rw [getFilterByName, find_eq_head_filter, h2]
    rfl

/-- Witness for `registry_add_twice_replaces` on the empty registry. -/
theorem registry_add_twice_replaces_witness :
    countName ([] : List (FilterItem Unit)) "m" ≤ 1 ∧
    (countName (fmAdd (fmAdd ([] : List (FilterItem Unit)) "m" () true 1)
        "m" () false 2) "m" = 1 ∧
      getFilterByName (fmAdd (fmAdd ([] : List (FilterItem Unit)) "m" () true 1)
        "m" () false 2) "m" = some ⟨"m", (), false, 2⟩) :=
  ⟨by decide,
    registry_add_twice_replaces [] "m" () () true false 1 2 (by decide)⟩

lemma fmApply_frame_foldl {σ φ : Type} (render : σ → φ → σ × φ)
    (truthy : σ → Bool) (l : List (FilterItem σ)) :
    ∀ fr : φ, (fmApply render truthy l fr).2
      = (applyTrace truthy l).foldl
          (fun f2 it => (render it.filter_obj f2).2) fr := by
  induction l with
  | nil => intro fr; rfl
  | cons a t ih =>
      intro fr
      unfold fmApply applyTrace
      by_cases h : (a.enabled && truthy a.filter_obj) = true
      · rw [if_pos h, List.filter_cons, if_pos h, List.foldl_cons]
        exact ih ((render a.filter_obj fr).2)
      · rw [if_neg h, List.filter_cons, if_neg h]
        exact ih fr

/-- C5: `apply` walks the registry in list order, which after any
reachable sequence of operations is ascending `z_order` order; it invokes
the render capability only of enabled units and threads the frame from
each visited unit to the next.  The concrete part is the spec example:
keys `[2, 1, 1]` added in order A, B, C are applied in order B, C, A
(equal keys keep insertion order), and the frame folded through a
name-recording render confirms the propagation order. -/
theorem registry_apply_order :
    (∀ (σ φ : Type) (render : σ → φ → σ × φ) (truthy : σ → Bool)
        (l : List (FilterItem σ)) (fr : φ),
      List.Sorted (@zleItem σ) l →
        List.Sorted (@zleItem σ) (applyTrace truthy l) ∧
        (∀ it ∈ applyTrace truthy l, it.enabled = true) ∧
        (fmApply render truthy l fr).2
          = (applyTrace truthy l).foldl
              (fun f2 it => (render it.filter_obj f2).2) fr) ∧
    ((applyTrace (fun _ => true)
        (fmAdd (fmAdd (fmAdd ([] : List (FilterItem String)) "A" "a" true 2)
          "B" "b" true 1) "C" "c" true 1)).map (fun it => it.name)
      = ["B", "C", "A"]) ∧
    ((fmApply (fun s fr => (s, fr ++ [s])) (fun _ => true)
        (fmAdd (fmAdd (fmAdd ([] : List (FilterItem String)) "A" "a" true 2)
          "B" "b" true 1) "C" "c" true 1) []).2
      = ["b", "c", "a"]) := by
  refine ⟨?_, by decide, rfl⟩
  intro σ φ render truthy l fr hs
  refine ⟨hs.filter _, ?_, fmApply_frame_foldl render truthy l fr⟩
  intro it hit
  have := List.of_mem_filter hit
  exact (Bool.and_eq_true _ _).mp this |>.1

/-- Witness for the quantified part of `registry_apply_order`, at the
concrete example registry (which is sorted). -/
theorem registry_apply_order_witness :
    List.Sorted (@zleItem String)
      (fmAdd (fmAdd (fmAdd ([] : List (FilterItem String)) "A" "a" true 2)
        "B" "b" true 1) "C" "c" true 1) ∧
    (List.Sorted (@zleItem String)
        (applyTrace (fun _ => true)
          (fmAdd (fmAdd (fmAdd ([] : List (FilterItem String)) "A" "a" true 2)
            "B" "b" true 1) "C" "c" true 1)) ∧
      (∀ it ∈ applyTrace (fun _ => true)
          (fmAdd (fmAdd (fmAdd ([] : List (FilterItem String)) "A" "a" true 2)
            "B" "b" true 1) "C" "c" true 1), it.enabled = true) ∧
      (fmApply (fun (s : String) (fr : List String) => (s, fr ++ [s]))
          (fun _ => true)
          (fmAdd (fmAdd (fmAdd ([] : List (FilterItem String)) "A" "a" true 2)
            "B" "b" true 1) "C" "c" true 1) []).2
        = (applyTrace (fun _ => true)
            (fmAdd (fmAdd (fmAdd ([] : List (FilterItem String)) "A" "a" true 2)
              "B" "b" true 1) "C" "c" true 1)).foldl
            (fun f2 it => (fun (s : String) (fr : List String) =>
              (s, fr ++ [s])) it.filter_obj f2 |>.2) []) := by
  refine ⟨?_, registry_apply_order.1 String (List String) _ _ _ [] ?_⟩
  · decide
  · decide

/-- C6 (amended): after every sequence of registry operations the unit
list is sorted ascending by `z_order`, and the re-sort is stable: units
holding equal keys keep the relative order they had just before the
re-sort.  (After a `move`, insertion order between equal keys is not in
general restored; see the counterexample.) -/
theorem registry_sorted_and_stable :
    (∀ (σ : Type) (ops : List (FMOp σ)),
      List.Sorted (@zleItem σ) (fmRun ops)) ∧
    (∀ (σ : Type) (l : List (FilterItem σ)) (k : Int),
      (sortZ l).filter (fun it => it.z_order == k)
        = l.filter (fun it => it.z_order == k)) :=
  ⟨fun _ ops => sorted_fmRun ops, fun _ l k => filter_z_sortZ l k⟩

/-- C6 counterexample: the claim requires equal-key units to appear in
original insertion order.  Run `add A (z=5); add B (z=1); move B 5` from
the empty registry: A was inserted before B, both end with key 5, yet the
resulting list is `[B, A]` — the stable re-sort of `move` preserves the
pre-move list order `[B(1), A(5)]`, not insertion order. -/
theorem registry_move_insertion_order_counterexample :
    (fmStep (fmStep (fmStep ([] : List (FilterItem Unit))
        (FMOp.add "A" () true 5)) (FMOp.add "B" () true 1))
      (FMOp.move "B" 5)).map (fun it => (it.name, it.z_order))
      = [("B", 5), ("A", 5)] := by
  decide

/-- C10: `FilterManager.apply` never changes the registry itself: the
names, enabled flags, draw-order keys and their order are identical
before and after the call; only the frame and the internal state of the
visited filter objects change. -/
theorem registry_apply_preserves_registry {σ φ : Type}
    (render : σ → φ → σ × φ) (truthy : σ → Bool)
    (l : List (FilterItem σ)) (fr : φ) :
    (fmApply render truthy l fr).1.map
        (fun it => (it.name, it.enabled, it.z_order))
      = l.map (fun it => (it.name, it.enabled, it.z_order)) := by
  induction l generalizing fr with
  | nil => rfl
  | cons a t ih =>
      unfold fmApply
      by_cases h : (a.enabled && truthy a.filter_obj) = true
      · rw [if_pos h]
        simp [ih]
      · rw [if_neg h]
        simp [ih]

/-- The six required MediaPipe landmark indices
(model_3d_filter.py line 20). -/
def MP_IDXS : List Nat := [33, 263, 1, 61, 291, 199]

/-- Shallow embedding of `Model3DFilter._get_face_landmarks`
(model_3d_filter.py lines 139-174).  `results` is the face-mesh provider
output (one point list per detected face); `P` is the pixel-point type.
The function uses the first face, collects the points of the required
indices that are in range (the `idx < len(face_landmarks)` guard; the
`default` argument models the guarded index and is never read), and
returns `none` — the `InsufficientLandmarks` failure of the spec — unless
exactly 6 points were collected. -/
def getFaceLandmarks {P : Type} (default : P) (results : List (List P)) :
    Option (List P) :=
  match results with
  | [] => none
  | face :: _ =>
      let lm2d := (MP_IDXS.filter (fun i => i < face.length)).map
        (fun i => face.getD i default)
      if lm2d.length = 6 then some lm2d else none

/-- One iteration of the detection loop of `Model3DFilter.apply`
(model_3d_filter.py lines 120-137): landmarks, then pose, then render,
falling back to the unchanged frame on either failure.  `detect`,
`calcPose` and `render` stand for the face-mesh provider, `cv2.solvePnP`
(`_calculate_pose`, returning `none` for its `(None, None, None)`) and
`_render_3d_model`. -/
def model3dStep {P Pose Fr : Type} (default : P)
    (detect : Fr → List (List P)) (calcPose : Fr → List P → Option Pose)
    (render : Fr → Pose → Fr) (f : Fr) : Fr :=
  match getFaceLandmarks default (detect f) with
  | none => f
  | some lm =>
      match calcPose f lm with
      | none => f
      | some p => render f p

/-- The detection loop of `Model3DFilter.apply`: one `model3dStep` per
detection, threading the frame.  (The unpacked bounding box is not used
by the loop body in the source.) -/
def model3dApply {P Pose Fr Det : Type} (default : P)
    (detect : Fr → List (List P)) (calcPose : Fr → List P → Option Pose)
    (render : Fr → Pose → Fr) (f : Fr) (dets : List Det) : Fr :=
  dets.foldl (fun fr _ => model3dStep default detect calcPose render fr) f

/-- C3: when the detected landmark set of the first face covers fewer
than 6 of the required indices, landmark extraction fails with
`InsufficientLandmarks` (`none`), no pose is computed for that face, the
frame is unchanged for that detection, and the loop carries on with the
remaining detections. -/
theorem model3d_insufficient_landmarks {P Pose Fr Det : Type} (default : P)
    (detect : Fr → List (List P)) (calcPose : Fr → List P → Option Pose)
    (render : Fr → Pose → Fr) (f : Fr) (det : Det) (dets : List Det)
    (face : List P) (rest : List (List P))
    (hdet : detect f = face :: rest)
    (hfew : (MP_IDXS.filter (fun i => i < face.length)).length < 6) :
    getFaceLandmarks default (detect f) = none ∧
    model3dApply default detect calcPose render f (det :: dets)
      = model3dApply default detect calcPose render f dets := by
  have hnone : getFaceLandmarks default (detect f) = none := by
    rw [hdet]
    simp only [getFaceLandmarks, List.length_map]
    rw [if_neg (by omega)]
  refine ⟨hnone, ?_⟩
  unfold model3dApply
  rw [List.foldl_cons]
  have hstep : model3dStep default detect calcPose render f = f := by
    unfold model3dStep
    rw [hnone]
  rw [hstep]

/-- Witness for `model3d_insufficient_landmarks`: a 40-point face covers
only indices 33 and 1 of the six required ones. -/
theorem model3d_insufficient_landmarks_witness :
    ((fun _ : Nat => [List.replicate 40 (0 : Nat)]) 7
        = List.replicate 40 (0 : Nat) :: []) ∧
    ((MP_IDXS.filter (fun i => i < (List.replicate 40 (0 : Nat)).length)).length
        < 6) ∧
    (getFaceLandmarks (0 : Nat) ((fun _ : Nat => [List.replicate 40 (0 : Nat)]) 7)
        = none ∧
      model3dApply (0 : Nat) (fun _ : Nat => [List.replicate 40 (0 : Nat)])
          (fun _ _ => (none : Option Unit)) (fun fr _ => fr) 7 [(), ()]
        = model3dApply (0 : Nat) (fun _ : Nat => [List.replicate 40 (0 : Nat)])
            (fun _ _ => (none : Option Unit)) (fun fr _ => fr) 7 [()]) :=
  ⟨rfl, by decide,
    model3d_insufficient_landmarks 0 (fun _ => [List.replicate 40 0])
      (fun _ _ => none) (fun fr _ => fr) 7 () [()]
      (List.replicate 40 0) [] rfl (by decide)⟩

/-- Construction failure of a placement configuration; `invalidScale` is
the InvalidScale error of the spec (`raise ValueError(...)` for scale,
filter_config_example.py line 34). -/
inductive ConfigError where
  | invalidScale
deriving DecidableEq

/-- Shallow embedding of `FilterConfig` (filter_config_example.py lines
10-27). -/
structure FilterConfig where
  name : String
  path : String
  scale : ℚ
  offset_x : Int
  offset_y : Int
  enabled : Bool

/-- Shallow embedding of constructing a `FilterConfig`, including the
`__post_init__` validation (filter_config_example.py lines 29-34):
construction fails with `invalidScale` unless `0.1 <= scale <= 2.0`.
(The missing-path check only prints a warning and does not fail.) -/
def mkFilterConfig (name path : String) (scale : ℚ) (ox oy : Int)
    (en : Bool) : Except ConfigError FilterConfig :=
  if 1 / 10 ≤ scale ∧ scale ≤ 2 then
    Except.ok ⟨name, path, scale, ox, oy, en⟩
  else Except.error ConfigError.invalidScale

/-- C7: every scale outside `[0.1, 2.0]` makes construction fail with
`InvalidScale`; every in-range scale constructs successfully, storing the
scale unchanged (no silent clamping). -/
theorem config_scale_validated (name path : String) (s : ℚ) (ox oy : Int)
    (en : Bool) :
    (¬(1 / 10 ≤ s ∧ s ≤ 2) →
      mkFilterConfig name path s ox oy en
        = Except.error ConfigError.invalidScale) ∧
    (1 / 10 ≤ s ∧ s ≤ 2 →
      mkFilterConfig name path s ox oy en
        = Except.ok ⟨name, path, s, ox, oy, en⟩) := by
  constructor
  · intro h
    unfold mkFilterConfig
    rw [if_neg h]
  · intro h
    unfold mkFilterConfig
    rw [if_pos h]

/-- Witness for `config_scale_validated`: scale 3 is rejected, scale 1 is
accepted unchanged. -/
theorem config_scale_validated_witness :
    (¬((1 : ℚ) / 10 ≤ 3 ∧ (3 : ℚ) ≤ 2) ∧
      mkFilterConfig "bigote" "a.png" 3 0 0 true
        = Except.error ConfigError.invalidScale) ∧
    (((1 : ℚ) / 10 ≤ 1 ∧ (1 : ℚ) ≤ 2) ∧
      mkFilterConfig "bigote" "a.png" 1 0 0 true
        = Except.ok ⟨"bigote", "a.png", 1, 0, 0, true⟩) :=
  ⟨⟨by norm_num, (config_scale_validated "bigote" "a.png" 3 0 0 true).1
      (by norm_num)⟩,
   ⟨by norm_num, (config_scale_validated "bigote" "a.png" 1 0 0 true).2
      (by norm_num)⟩⟩

lemma blendRGBA_isSome_of_nonneg (f : Frame) (g : Asset) (ox oy : Int)
    (hx : 0 ≤ ox) (hy : 0 ≤ oy) :
    ∃ f2, blendRGBA f g ox oy = some f2 := by
  by_cases hc : (f.w : Int) ≤ ox ∨ (f.h : Int) ≤ oy ∨ g.rh = 0 ∨ g.rw = 0
  · exact ⟨f, blendRGBA_noop f g ox oy hc⟩
  · exact ⟨_, blendRGBA_nonneg_eq f g ox oy hx hy (by omega) (by omega)
      (by omega) (by omega)⟩

/-- Origin computation of `OverlayFilter.apply` (overlay_filter.py lines
114-126): `target_w = int(w * self.scale)`, `target_h` from the overlay
aspect ratio `shape[0] / shape[1]`, then
`oy = max(0, y - target_h // 2 + self.offset_y)` and
`ox = max(0, x - (target_w - w) // 2 + self.offset_x)`.  Floats are
modelled as exact rationals, Python `int()` as `intTrunc` and `//` as
`Int.fdiv`. -/
def overlayOrigin (scale : ℚ) (offset_x offset_y : Int) (ovh ovw : Nat)
    (x y w : Int) : Int × Int :=
  let target_w := intTrunc ((w : ℚ) * scale)
  let target_h := intTrunc ((target_w : ℚ) * ((ovh : ℚ) / (ovw : ℚ)))
  let oy := max 0 (y - Int.fdiv target_h 2 + offset_y)
  let ox := max 0 (x - Int.fdiv (target_w - w) 2 + offset_x)
  (ox, oy)

/-- One iteration of the detection loop of `OverlayFilter.apply` (lines
114-134): compute the target size and the clamped origin, resize the
overlay (`resize` stands for `cv2.resize`, whose pixel content is
irrelevant to placement) and blend at `(ox, oy)`. -/
def overlayApplyStep (resize : Int → Int → Asset) (scale : ℚ)
    (offset_x offset_y : Int) (ovh ovw : Nat) (f : Frame)
    (det : Int × Int × Int × Int) : Option Frame :=
  let x := det.1
  let y := det.2.1
  let w := det.2.2.1
  let target_w := intTrunc ((w : ℚ) * scale)
  let target_h := intTrunc ((target_w : ℚ) * ((ovh : ℚ) / (ovw : ℚ)))
  let oy := max 0 (y - Int.fdiv target_h 2 + offset_y)
  let ox := max 0 (x - Int.fdiv (target_w - w) 2 + offset_x)
  blendRGBA f (resize target_w target_h) ox oy

/-- The detection loop of `OverlayFilter.apply`: one blend per detection,
threading the frame; `none` would propagate a numpy blending error. -/
def overlayApply (resize : Int → Int → Asset) (scale : ℚ)
    (offset_x offset_y : Int) (ovh ovw : Nat) (f : Frame)
    (dets : List (Int × Int × Int × Int)) : Option Frame :=
  dets.foldl (fun acc det => acc.bind
    (fun fr => overlayApplyStep resize scale offset_x offset_y ovh ovw fr det))
    (some f)

lemma overlayApplyStep_isSome (resize : Int → Int → Asset) (scale : ℚ)
    (offset_x offset_y : Int) (ovh ovw : Nat) (f : Frame)
    (det : Int × Int × Int × Int) :
    ∃ f2, overlayApplyStep resize scale offset_x offset_y ovh ovw f det
      = some f2 := by
  unfold overlayApplyStep
  exact blendRGBA_isSome_of_nonneg f _ _ _ (le_max_left 0 _) (le_max_left 0 _)

lemma overlayApply_isSome (resize : Int → Int → Asset) (scale : ℚ)
    (offset_x offset_y : Int) (ovh ovw : Nat)
    (dets : List (Int × Int × Int × Int)) :
    ∀ f : Frame, ∃ f2,
      overlayApply resize scale offset_x offset_y ovh ovw f dets = some f2 := by
  induction dets with
  | nil => exact fun f => ⟨f, rfl⟩
  | cons d ds ih =>
      intro f
      obtain ⟨f1, h1⟩ :=
        overlayApplyStep_isSome resize scale offset_x offset_y ovh ovw f d
      unfold overlayApply
      rw [List.foldl_cons]
      show ∃ f2, List.foldl _ ((some f).bind _) ds = some f2
      rw [Option.some_bind, h1]
      exact ih f1

/-- C9: `OverlayFilter.apply` clamps both computed origin coordinates
with `max(0, ...)`, so the blend is always invoked at a non-negative
origin; when the raw placement would extend past the top or the left
frame edge, the overlay is anchored at coordinate 0 instead of being
clipped; and consequently the per-detection blend (and the whole loop)
always succeeds. -/
theorem overlay_apply_origin_clamped (resize : Int → Int → Asset)
    (scale : ℚ) (offset_x offset_y : Int) (ovh ovw : Nat) (f : Frame)
    (x y w hd : Int) (dets : List (Int × Int × Int × Int)) :
    0 ≤ (overlayOrigin scale offset_x offset_y ovh ovw x y w).1 ∧
    0 ≤ (overlayOrigin scale offset_x offset_y ovh ovw x y w).2 ∧
    (x - Int.fdiv (intTrunc ((w : ℚ) * scale) - w) 2 + offset_x ≤ 0 →
      (overlayOrigin scale offset_x offset_y ovh ovw x y w).1 = 0) ∧
    (y - Int.fdiv (intTrunc ((intTrunc ((w : ℚ) * scale) : ℚ)
          * ((ovh : ℚ) / (ovw : ℚ)))) 2 + offset_y ≤ 0 →
      (overlayOrigin scale offset_x offset_y ovh ovw x y w).2 = 0) ∧
    overlayApplyStep resize scale offset_x offset_y ovh ovw f (x, y, w, hd)
      = blendRGBA f
          (resize (intTrunc ((w : ℚ) * scale))
            (intTrunc ((intTrunc ((w : ℚ) * scale) : ℚ)
              * ((ovh : ℚ) / (ovw : ℚ)))))
          (overlayOrigin scale offset_x offset_y ovh ovw x y w).1
          (overlayOrigin scale offset_x offset_y ovh ovw x y w).2 ∧
    (∃ f2, overlayApplyStep resize scale offset_x offset_y ovh ovw f
        (x, y, w, hd) = some f2) ∧
    (∃ f3, overlayApply resize scale offset_x offset_y ovh ovw f dets
        = some f3) := by
  refine ⟨le_max_left 0 _, le_max_left 0 _, ?_, ?_, rfl,
    overlayApplyStep_isSome resize scale offset_x offset_y ovh ovw f _,
    overlayApply_isSome resize scale offset_x offset_y ovh ovw dets f⟩
  · intro h
    exact max_eq_left h
  · intro h
    exact max_eq_left h

/-- Witness for `overlay_apply_origin_clamped` at a concrete
configuration where the raw origins are non-positive, hence anchored at
0. -/
theorem overlay_apply_origin_clamped_witness :
    ((0 : Int) - Int.fdiv (intTrunc (((0 : Int) : ℚ) * 1) - 0) 2 + 0 ≤ 0) ∧
    ((0 : Int) - Int.fdiv (intTrunc ((intTrunc (((0 : Int) : ℚ) * 1) : ℚ)
        * (((1 : Nat) : ℚ) / ((1 : Nat) : ℚ)))) 2 + 0 ≤ 0) ∧
    (overlayOrigin 1 0 0 1 1 0 0 0).1 = 0 ∧
    (overlayOrigin 1 0 0 1 1 0 0 0).2 = 0 ∧
    0 ≤ (overlayOrigin 1 0 0 1 1 0 0 0).1 ∧
    0 ≤ (overlayOrigin 1 0 0 1 1 0 0 0).2 ∧
    (∃ f2, overlayApplyStep (fun _ _ => ⟨0, 0, fun _ _ => ⟨0, 0, 0⟩, none⟩)
        1 0 0 1 1 ⟨1, 1, fun _ _ => ⟨0, 0, 0⟩⟩ (0, 0, 0, 0) = some f2) ∧
    (∃ f3, overlayApply (fun _ _ => ⟨0, 0, fun _ _ => ⟨0, 0, 0⟩, none⟩)
        1 0 0 1 1 ⟨1, 1, fun _ _ => ⟨0, 0, 0⟩⟩ [] = some f3) := by
  have h := overlay_apply_origin_clamped
    (fun _ _ => ⟨0, 0, fun _ _ => ⟨0, 0, 0⟩, none⟩) 1 0 0 1 1
    ⟨1, 1, fun _ _ => ⟨0, 0, 0⟩⟩ 0 0 0 0 []
  have ha1 : (0 : Int) - Int.fdiv (intTrunc (((0 : Int) : ℚ) * 1) - 0) 2 + 0
      ≤ 0 := by
    norm_num [intTrunc]
  have ha2 : (0 : Int) - Int.fdiv (intTrunc ((intTrunc (((0 : Int) : ℚ) * 1) : ℚ)
      * (((1 : Nat) : ℚ) / ((1 : Nat) : ℚ)))) 2 + 0 ≤ 0 := by
    norm_num [intTrunc]
  exact ⟨ha1, ha2, h.2.2.1 ha1, h.2.2.2.1 ha2, h.1, h.2.1,
    h.2.2.2.2.2.1, h.2.2.2.2.2.2⟩

/-- Shallow embedding of the mustache pseudo-detection computed in `main`
(main.py lines 188-216) from the landmark list `lm` of the first detected
face (integer pixel coordinates, as produced by `FaceMeshDetector.detect`).
Following the source: the overlay branch runs only when
`0 <= upper_lip_idx < len(face_pts[0])` with `upper_lip_idx = 2`
(otherwise nothing is applied, modelled as `none`); the mouth width is
`abs(right_corner[0] - left_corner[0])` of landmarks 291 and 61 when the
list has more than 291 entries, and the fixed default 100 otherwise;
`filter_width = int(mouth_width * 1.3)`,
`filter_height = int(filter_width * 0.4)` (floats as exact rationals,
`int()` as `intTrunc`), and the box corner is
`(mx - filter_width // 2, my - filter_height // 2)` for the landmark-2
point `(mx, my)`. -/
def mustacheDetection (lm : List (Int × Int)) : Option (Int × Int × Int × Int) :=
  if 2 < lm.length then
    let m := lm.getD 2 (0, 0)
    let mouth_width : Int :=
      if 291 < lm.length then
        |(lm.getD 291 (0, 0)).1 - (lm.getD 61 (0, 0)).1|
      else 100
    let filter_width := intTrunc ((mouth_width : ℚ) * (13 / 10))
    let filter_height := intTrunc ((filter_width : ℚ) * (2 / 5))
    some (m.1 - Int.fdiv filter_width 2, m.2 - Int.fdiv filter_height 2,
      filter_width, filter_height)
  else none

/-- C8 (amended): for a landmark set with at least 292 entries the target
width is the horizontal pixel distance (absolute difference of x
coordinates) between mouth-corner landmarks 61 and 291 scaled by 1.3 and
truncated, and the detection box is centred on landmark 2 (the point just
below the nose tip); with at least 3 but fewer than 292 entries the fixed
default mouth width 100 is used, giving the constant box size 130 × 52;
with fewer than 3 entries no overlay detection is produced at all. -/
theorem mustache_detection_spec (lm : List (Int × Int)) :
    (292 ≤ lm.length →
      mustacheDetection lm = some
        ((lm.getD 2 (0, 0)).1 - Int.fdiv (intTrunc
            (((|(lm.getD 291 (0, 0)).1 - (lm.getD 61 (0, 0)).1| : Int) : ℚ)
              * (13 / 10))) 2,
          (lm.getD 2 (0, 0)).2 - Int.fdiv (intTrunc
            ((intTrunc (((|(lm.getD 291 (0, 0)).1 - (lm.getD 61 (0, 0)).1| : Int) : ℚ)
              * (13 / 10)) : ℚ) * (2 / 5))) 2,
          intTrunc (((|(lm.getD 291 (0, 0)).1 - (lm.getD 61 (0, 0)).1| : Int) : ℚ)
            * (13 / 10)),
          intTrunc ((intTrunc (((|(lm.getD 291 (0, 0)).1
            - (lm.getD 61 (0, 0)).1| : Int) : ℚ) * (13 / 10)) : ℚ) * (2 / 5)))) ∧
    (3 ≤ lm.length → lm.length < 292 →
      mustacheDetection lm = some ((lm.getD 2 (0, 0)).1 - 65,
        (lm.getD 2 (0, 0)).2 - 26, 130, 52)) ∧
    (lm.length < 3 → mustacheDetection lm = none) := by
  refine ⟨?_, ?_, ?_⟩
  · intro h
    simp only [mustacheDetection]
    rw [if_pos (by omega), if_pos (by omega)]
  · intro h3 h292
    simp only [mustacheDetection]
    rw [if_pos (by omega), if_neg (by omega)]
    have hw : intTrunc (((100 : Int) : ℚ) * (13 / 10)) = 130 := by
      norm_num [intTrunc]
    rw [hw]
    have hh : intTrunc (((130 : Int) : ℚ) * (2 / 5)) = 52 := by
      norm_num [intTrunc]
    rw [hh, show Int.fdiv 130 2 = 65 from by decide,
      show Int.fdiv 52 2 = 26 from by decide]
  · intro h
    simp only [mustacheDetection]
    rw [if_neg (by omega)]

set_option maxRecDepth 100000 in
/-- Witness for `mustache_detection_spec` on a 292-entry landmark set
(all landmarks at the origin). -/
theorem mustache_detection_spec_witness :
    292 ≤ (List.replicate 292 ((0 : Int), (0 : Int))).length ∧
    mustacheDetection (List.replicate 292 ((0 : Int), (0 : Int))) = some
      (((List.replicate 292 ((0 : Int), (0 : Int))).getD 2 (0, 0)).1
          - Int.fdiv (intTrunc
            (((|((List.replicate 292 ((0 : Int), (0 : Int))).getD 291 (0, 0)).1
              - ((List.replicate 292 ((0 : Int), (0 : Int))).getD 61 (0, 0)).1|
                : Int) : ℚ) * (13 / 10))) 2,
        ((List.replicate 292 ((0 : Int), (0 : Int))).getD 2 (0, 0)).2
          - Int.fdiv (intTrunc
            ((intTrunc (((|((List.replicate 292 ((0 : Int), (0 : Int))).getD 291
                (0, 0)).1
              - ((List.replicate 292 ((0 : Int), (0 : Int))).getD 61 (0, 0)).1|
                : Int) : ℚ) * (13 / 10)) : ℚ) * (2 / 5))) 2,
        intTrunc (((|((List.replicate 292 ((0 : Int), (0 : Int))).getD 291
            (0, 0)).1
          - ((List.replicate 292 ((0 : Int), (0 : Int))).getD 61 (0, 0)).1|
            : Int) : ℚ) * (13 / 10)),
        intTrunc ((intTrunc (((|((List.replicate 292 ((0 : Int), (0 : Int))).getD
            291 (0, 0)).1
          - ((List.replicate 292 ((0 : Int), (0 : Int))).getD 61 (0, 0)).1|
            : Int) : ℚ) * (13 / 10)) : ℚ) * (2 / 5))) :=
  ⟨by decide,
    (mustache_detection_spec (List.replicate 292 ((0 : Int), (0 : Int)))).1
      (by decide)⟩

set_option maxRecDepth 100000 in
/-- C8 counterexample, refuting the claim as stated on two concrete
inputs.  First, a 2-entry landmark set: the claim promises the fixed
default width for every set with fewer than 292 entries, but the code
produces no pseudo-detection at all (the `upper_lip_idx` bound check
fails).  Second, a 292-entry set whose mouth corners are landmark
61 = (0, 0) and landmark 291 = (3, 4): their pixel distance is 5 (since
5 squared is 3 squared plus 4 squared), so the claimed width would be
`int(5 * 1.3) = 6`, but the code uses only the horizontal difference
`abs(3 - 0) = 3` and produces width `int(3 * 1.3) = 3`. -/
theorem mustache_width_counterexample :
    mustacheDetection [((0 : Int), (0 : Int)), (1, 1)] = none ∧
    (mustacheDetection (List.replicate 291 ((0 : Int), (0 : Int))
        ++ [((3 : Int), (4 : Int))])).map (fun d => d.2.2.1) = some 3 ∧
    ((0 : ℚ) ≤ 5 ∧ (5 : ℚ) ^ 2 = 3 ^ 2 + 4 ^ 2 ∧
      intTrunc ((5 : ℚ) * (13 / 10)) = 6) ∧
    (6 : Int) ≠ 3 := by
  refine ⟨by decide, ?_, ⟨by norm_num, by norm_num, by norm_num [intTrunc]⟩,
    by decide⟩
  have hlen : (List.replicate 291 ((0 : Int), (0 : Int))
      ++ [((3 : Int), (4 : Int))]).length = 292 := by decide
  have h291 : (List.replicate 291 ((0 : Int), (0 : Int))
      ++ [((3 : Int), (4 : Int))]).getD 291 (0, 0) = (3, 4) := by decide
  have h61 : (List.replicate 291 ((0 : Int), (0 : Int))
      ++ [((3 : Int), (4 : Int))]).getD 61 (0, 0) = (0, 0) := by decide
  rw [mustacheDetection]
  rw [if_pos (by rw [hlen]; omega)]
  rw [if_pos (by rw [hlen]; omega)]
  rw [h291, h61]
  norm_num [intTrunc]

end VRFiltro
